import Mathlib

/-!
Verification of the infinite-brainstorm canvas interaction core.

Shallow embedding of the Rust sources:
  - src/src/history.rs   : bounded undo/redo history of full snapshots
  - src/src/state.rs     : Board / Node / Edge / Camera data model
  - src/src/app.rs       : pointer and keyboard gesture handlers
  - src/src-tauri/src/lib.rs : asset management commands

f64 coordinates are modelled as rationals (exact field arithmetic);
Rust String ids as Lean String; Vec as List with push at the end.
-/

namespace Brainstorm

/-- Constant RESIZE_HANDLE_SIZE from state.rs. -/
def RESIZE_HANDLE_SIZE : ℚ := 8

/-- Constant MIN_NODE_WIDTH from state.rs. -/
def MIN_NODE_WIDTH : ℚ := 50

/-- Constant MIN_NODE_HEIGHT from state.rs. -/
def MIN_NODE_HEIGHT : ℚ := 30

/-- Enum ResizeHandle from state.rs. -/
inductive ResizeHandle where
  | TopLeft
  | TopRight
  | BottomLeft
  | BottomRight
deriving DecidableEq, Repr

/-- Struct Node from state.rs (priority u8 modelled as Nat). -/
structure Node where
  id : String
  x : ℚ
  y : ℚ
  width : ℚ
  height : ℚ
  text : String
  node_type : String
  color : Option String
  tags : List String
  status : Option String
  group : Option String
  priority : Option Nat
deriving DecidableEq, Repr

/-- Edge from state.rs; app.rs additionally constructs an optional label
field (Edge \x7b .. label: None \x7d), so the embedding carries it. -/
structure Edge where
  id : String
  from_node : String
  to_node : String
  label : Option String
deriving DecidableEq, Repr

/-- Struct Board from state.rs. -/
structure Board where
  nodes : List Node
  edges : List Edge
deriving DecidableEq, Repr

/-- Node::new from state.rs: default size 200 x 100, kind text, no metadata. -/
def Node.new (id : String) (x y : ℚ) (text : String) : Node :=
  { id := id, x := x, y := y, width := 200, height := 100, text := text,
    node_type := "text", color := none, tags := [], status := none,
    group := none, priority := none }

/-- Node::contains_point from state.rs: inclusive axis-aligned containment. -/
def Node.contains_point (n : Node) (px py : ℚ) : Bool :=
  px ≥ n.x && px ≤ n.x + n.width && py ≥ n.y && py ≤ n.y + n.height

/-- Struct Camera from state.rs. -/
structure Camera where
  x : ℚ
  y : ℚ
  zoom : ℚ
deriving DecidableEq, Repr

/-- Camera::new from state.rs. -/
def Camera.new : Camera := { x := 0, y := 0, zoom := 1 }

/-- Camera::screen_to_world from state.rs. -/
def Camera.screen_to_world (c : Camera) (screen_x screen_y : ℚ) : ℚ × ℚ :=
  (screen_x / c.zoom + c.x, screen_y / c.zoom + c.y)

/-- Camera::world_to_screen from state.rs. -/
def Camera.world_to_screen (c : Camera) (world_x world_y : ℚ) : ℚ × ℚ :=
  ((world_x - c.x) * c.zoom, (world_y - c.y) * c.zoom)

/-- f64::clamp as used in app.rs (lo ≤ hi in all call sites). -/
def rclamp (v lo hi : ℚ) : ℚ := min (max v lo) hi

/-- Struct History from history.rs: two stacks of snapshots plus a bound.
The end of each list is the top of the stack (Vec push and pop act there);
trimming removes from the front (Vec remove at index 0). -/
structure History (T : Type) where
  past : List T
  future : List T
  max_size : Nat
deriving DecidableEq, Repr

/-- History::new from history.rs. -/
def History.new (T : Type) (max_size : Nat) : History T :=
  { past := [], future := [], max_size := max_size }

/-- The while loop in History::push: remove the front element while the
stack is longer than the bound. -/
def trimOldest {T : Type} (l : List T) (n : Nat) : List T :=
  if l.length > n then
    match l with
    | [] => []
    | _ :: t => trimOldest t n
  else l

/-- History::push from history.rs: clear the redo stack, append the
snapshot, trim oldest entries beyond max_size. -/
def History.push {T : Type} (h : History T) (state : T) : History T :=
  { past := trimOldest (h.past ++ [state]) h.max_size,
    future := [],
    max_size := h.max_size }

/-- History::undo from history.rs: pop the undo stack; on success push the
live value onto the redo stack and return the popped snapshot. -/
def History.undo {T : Type} (h : History T) (current : T) : Option T × History T :=
  match h.past.getLast? with
  | none => (none, h)
  | some previous =>
      (some previous,
       { h with past := h.past.dropLast, future := h.future ++ [current] })

/-- History::redo from history.rs: symmetric to undo on the redo stack. -/
def History.redo {T : Type} (h : History T) (current : T) : Option T × History T :=
  match h.future.getLast? with
  | none => (none, h)
  | some next =>
      (some next,
       { h with future := h.future.dropLast, past := h.past ++ [current] })

/-- History::can_undo from history.rs. -/
def History.can_undo {T : Type} (h : History T) : Bool := !h.past.isEmpty

/-- History::can_redo from history.rs. -/
def History.can_redo {T : Type} (h : History T) : Bool := !h.future.isEmpty

/-!
Gesture handlers from src/src/app.rs, embedded as pure functions. The
reactive signals become explicit arguments and results; uuid generation
becomes explicit fresh-id arguments; fire-and-forget persistence and
rendering are outside the interaction core and not modelled.
-/

/-- The hit scan nodes.iter().rev().find(contains_point) used by
on_mouse_down, on_mouse_up and on_double_click in app.rs: topmost node
(later in the list = higher z-order) containing the world point. -/
def findTopmostNodeAt (nodes : List Node) (wx wy : ℚ) : Option Node :=
  nodes.reverse.find? (fun n => n.contains_point wx wy)

/-- Struct ResizeState from app.rs. -/
structure ResizeState where
  is_resizing : Bool
  node_id : Option String
  handle : Option ResizeHandle
  start_mouse_x : ℚ
  start_mouse_y : ℚ
  original_x : ℚ
  original_y : ℚ
  original_width : ℚ
  original_height : ℚ
deriving DecidableEq, Repr

/-- The Resizing branch of on_mouse_move in app.rs, restricted to the one
node whose id matches: per-handle geometry recomputation from the world
delta (dx, dy), clamped to the minimum width and height. -/
def resizeUpdateNode (rs : ResizeState) (dx dy : ℚ) (node : Node) : Node :=
  match rs.handle with
  | some ResizeHandle.TopLeft =>
      let new_width := max (rs.original_width - dx) MIN_NODE_WIDTH
      let new_height := max (rs.original_height - dy) MIN_NODE_HEIGHT
      let actual_dx := rs.original_width - new_width
      let actual_dy := rs.original_height - new_height
      { node with x := rs.original_x + actual_dx, y := rs.original_y + actual_dy,
                  width := new_width, height := new_height }
  | some ResizeHandle.TopRight =>
      let new_width := max (rs.original_width + dx) MIN_NODE_WIDTH
      let new_height := max (rs.original_height - dy) MIN_NODE_HEIGHT
      let actual_dy := rs.original_height - new_height
      { node with y := rs.original_y + actual_dy,
                  width := new_width, height := new_height }
  | some ResizeHandle.BottomLeft =>
      let new_width := max (rs.original_width - dx) MIN_NODE_WIDTH
      let new_height := max (rs.original_height + dy) MIN_NODE_HEIGHT
      let actual_dx := rs.original_width - new_width
      { node with x := rs.original_x + actual_dx,
                  width := new_width, height := new_height }
  | some ResizeHandle.BottomRight =>
      let new_width := max (rs.original_width + dx) MIN_NODE_WIDTH
      let new_height := max (rs.original_height + dy) MIN_NODE_HEIGHT
      { node with width := new_width, height := new_height }
  | none => node

/-- The corner of a node rectangle opposite to a resize handle: dragging
a handle must keep this corner stationary. -/
def oppositeCorner (hd : ResizeHandle) (x y w h : ℚ) : ℚ × ℚ :=
  match hd with
  | ResizeHandle.TopLeft => (x + w, y + h)
  | ResizeHandle.TopRight => (x, y + h)
  | ResizeHandle.BottomLeft => (x + w, y)
  | ResizeHandle.BottomRight => (x, y)

/-- Update the first node with the given id, as b.nodes.iter_mut().find
does in the Resizing branch of on_mouse_move. -/
def updateFirstNode (nid : String) (f : Node → Node) : List Node → List Node
  | [] => []
  | n :: rest =>
      if n.id = nid then f n :: rest else n :: updateFirstNode nid f rest

/-- The Resizing branch of on_mouse_move in app.rs at board level. -/
def onMouseMoveResizing (rs : ResizeState) (cam : Camera)
    (canvas_x canvas_y : ℚ) (b : Board) : Board :=
  let w := cam.screen_to_world canvas_x canvas_y
  let dx := w.1 - rs.start_mouse_x
  let dy := w.2 - rs.start_mouse_y
  match rs.node_id with
  | some nid => { b with nodes := updateFirstNode nid (resizeUpdateNode rs dx dy) b.nodes }
  | none => b

/-- on_wheel from app.rs: zoom toward the cursor. The zoom factor is 1.1
for wheel-up (delta_y < 0) and 0.9 otherwise; the new zoom is clamped to
the range 0.1 ..= 5.0, and the camera offset is recomputed so that the
world point previously under the cursor stays under the cursor. -/
def onWheel (c : Camera) (canvas_x canvas_y delta_y : ℚ) : Camera :=
  let zoom_factor : ℚ := if delta_y < 0 then 11/10 else 9/10
  let w := c.screen_to_world canvas_x canvas_y
  let zoom := rclamp (c.zoom * zoom_factor) (1/10) 5
  { x := w.1 - canvas_x / zoom, y := w.2 - canvas_y / zoom, zoom := zoom }

/-- The is_creating branch of on_mouse_up in app.rs, given the source node
id recorded at gesture start and the world release point: append an edge
(with a fresh uuid, passed explicitly) only when the release point hits a
node different from the source, pushing one history snapshot first;
otherwise leave history and board untouched. -/
def onMouseUpCreatingEdge (hist : History Board) (from_id : String)
    (b : Board) (wx wy : ℚ) (freshEdgeId : String) :
    History Board × Board :=
  match findTopmostNodeAt b.nodes wx wy with
  | some target =>
      if target.id ≠ from_id then
        (hist.push b,
         { b with edges := b.edges ++
             [{ id := freshEdgeId, from_node := from_id,
                to_node := target.id, label := none }] })
      else (hist, b)
  | none => (hist, b)

/-- on_double_click from app.rs. Over a node the click routes by kind
(image / md / link kinds open overlays or an external browser and leave
board, history, selection and the inline editor untouched; other kinds
enter inline edit mode). Over empty space it creates a default node
centered on the click, selects it, enters edit mode, and pushes a history
snapshot before the insertion. Result: (history, board, selected node
ids, inline editing target). -/
def onDoubleClick (hist : History Board) (b : Board) (cam : Camera)
    (canvas_x canvas_y : ℚ) (freshNodeId : String)
    (selected : List String) (editing : Option String) :
    History Board × Board × List String × Option String :=
  let w := cam.screen_to_world canvas_x canvas_y
  match findTopmostNodeAt b.nodes w.1 w.2 with
  | some node =>
      if node.node_type = "image" then
        (hist, b, selected, editing)
      else if node.node_type = "md" then
        (hist, b, selected, editing)
      else if node.node_type = "link" then
        (hist, b, selected, editing)
      else
        (hist, b, selected, some node.id)
  | none =>
      let new_node := Node.new freshNodeId (w.1 - 100) (w.2 - 50) "New Node"
      (hist.push b, { b with nodes := b.nodes ++ [new_node] },
       [freshNodeId], some freshNodeId)

/-- The Backspace / Delete branch of on_keydown in app.rs: with a selected
edge, push a snapshot and drop that edge; otherwise with a non-empty node
selection, push a snapshot, drop the selected nodes and every edge with a
selected endpoint; otherwise do nothing. -/
def onKeyDownDelete (hist : History Board) (selected : List String)
    (edge_sel : Option String) (b : Board) : History Board × Board :=
  match edge_sel with
  | some edge_id =>
      (hist.push b, { b with edges := b.edges.filter (fun e => e.id ≠ edge_id) })
  | none =>
      if selected.isEmpty then (hist, b)
      else
        (hist.push b,
         { nodes := b.nodes.filter (fun n => !selected.contains n.id),
           edges := b.edges.filter (fun e =>
             !selected.contains e.from_node && !selected.contains e.to_node) })

/-- The ctrl/cmd-c branch of on_keydown in app.rs: the internal clipboard
receives the selected nodes and only those edges whose two endpoints are
both selected. -/
def copySelection (selected : List String) (b : Board) : List Node × List Edge :=
  (b.nodes.filter (fun n => selected.contains n.id),
   b.edges.filter (fun e =>
     selected.contains e.from_node && selected.contains e.to_node))

/-- HashMap indexing id_map[key] as used by the paste branch of on_keydown
in app.rs. In the Rust code a missing key panics; under clipboards
produced by the copy command every looked-up key is present (proved
below), so the default branch is never taken there. -/
def lookupId (m : List (String × String)) (k : String) : String :=
  match m.find? (fun p => p.1 = k) with
  | some p => p.2
  | none => k

/-- The ctrl/cmd-v branch of on_keydown in app.rs: recenter the copied
nodes on the mouse position, remap every copied node id to a fresh uuid
(the uuid generator is passed explicitly as newIdOf for node ids and
newEdgeIdOf for edge ids), rewire the copied edges through the id map,
push one history snapshot and append the clones; the fresh node ids
become the selection. A clipboard without nodes leaves everything
untouched. Result: (history, board, selected node ids). -/
def pasteClipboard (clip : List Node × List Edge)
    (newIdOf : String → String) (newEdgeIdOf : String → String)
    (mouse_x mouse_y : ℚ) (hist : History Board) (b : Board)
    (selected : List String) :
    History Board × Board × List String :=
  let nodes := clip.1
  let edges := clip.2
  if nodes.isEmpty then (hist, b, selected)
  else
    let cx := (nodes.map (fun n => n.x + n.width / 2)).sum / (nodes.length : ℚ)
    let cy := (nodes.map (fun n => n.y + n.height / 2)).sum / (nodes.length : ℚ)
    let id_map := nodes.map (fun n => (n.id, newIdOf n.id))
    let new_nodes := nodes.map (fun n =>
      { n with id := lookupId id_map n.id,
               x := n.x - cx + mouse_x, y := n.y - cy + mouse_y })
    let new_edges := edges.map (fun e =>
      { id := newEdgeIdOf e.id,
        from_node := lookupId id_map e.from_node,
        to_node := lookupId id_map e.to_node,
        label := e.label })
    let new_ids := new_nodes.map (fun n => n.id)
    (hist.push b,
     { nodes := b.nodes ++ new_nodes, edges := b.edges ++ new_edges },
     new_ids)

/-!
delete_asset from src/src-tauri/src/lib.rs. Paths are modelled as
component lists (PathBuf::starts_with is component-wise prefix); the
operating system services - canonicalization and the stored files - are
an explicit abstract file-system value.
-/

/-- Abstract file system: canonicalization (none when the path does not
resolve) and the set of stored files, identified by canonical path. -/
structure FileSys where
  canon : List String → Option (List String)
  files : List (List String)

/-- Command delete_asset from lib.rs: canonicalize the requested path and
the assets directory (cwd/assets); refuse with a descriptive error when
either fails or when the canonical file does not lie under the canonical
assets directory; only then remove the file. -/
def delete_asset (fs : FileSys) (cwd : List String) (path : List String) :
    Except String FileSys :=
  let assets_dir := cwd ++ ["assets"]
  match fs.canon path with
  | none => Except.error "File not found"
  | some canonical_file =>
      match fs.canon assets_dir with
      | none => Except.error "Assets folder not found"
      | some canonical_assets =>
          if canonical_assets.isPrefixOf canonical_file then
            Except.ok { fs with
              files := fs.files.filter (fun f => f ≠ canonical_file) }
          else
            Except.error "Can only delete files from assets folder"

/-!
Helper lemmas shared by several claims.
-/

/-- The trimming loop of History::push keeps exactly the newest entries:
it equals dropping the excess from the front. -/
theorem trimOldest_eq_drop {T : Type} (l : List T) (n : Nat) :
    trimOldest l n = l.drop (l.length - n) := by
  induction l with
  | nil => simp [trimOldest]
  | cons a t ih =>
      by_cases hlen : (a :: t).length > n
      · rw [trimOldest, if_pos hlen]
        have h2 : (a :: t).length - n = (t.length - n) + 1 := by
          simp only [List.length_cons] at hlen ⊢
          omega
        simp only [h2, List.drop_succ_cons]
        exact ih
      · rw [trimOldest, if_neg hlen]
        have h2 : (a :: t).length - n = 0 := by
          simp only [List.length_cons] at hlen ⊢
          omega
        rw [h2, List.drop_zero]

/-- Reattaching the popped last element restores the list. -/
theorem dropLast_append_of_getLastEq {T : Type} {l : List T} {a : T}
    (hl : l.getLast? = some a) : l.dropLast ++ [a] = l := by
  rcases List.eq_nil_or_concat l with rfl | ⟨l0, b, rfl⟩
  · simp at hl
  · simp only [List.concat_eq_append, List.getLast?_concat,
      Option.some.injEq] at hl
    simp only [List.concat_eq_append, List.dropLast_concat, hl]

/-- C1: for every history with configured maximum depth and every
snapshot, push clears the redo stack and appends the snapshot to the undo
stack, keeping only the newest max_size entries (oldest evicted first, as
the drop-from-the-front formula states), so the undo stack never holds
more than max_size snapshots; the redo stack is never trimmed by the
depth limit (undo appends to it unconditionally). -/
theorem history_push_depth_invariant {T : Type} (h : History T) (s : T) :
    (h.push s).future = [] ∧
    (h.push s).past.length ≤ h.max_size ∧
    (h.push s).past = (h.past ++ [s]).drop (h.past.length + 1 - h.max_size) ∧
    (∀ c : T, h.past ≠ [] → ((h.undo c).2).future = h.future ++ [c]) := by
  refine ⟨rfl, ?_, ?_, ?_⟩
  · show (trimOldest (h.past ++ [s]) h.max_size).length ≤ h.max_size
    rw [trimOldest_eq_drop, List.length_drop]
    simp only [List.length_append, List.length_singleton]
    omega
  · show trimOldest (h.past ++ [s]) h.max_size = _
    rw [trimOldest_eq_drop]
    simp only [List.length_append, List.length_singleton]
  · intro c hne
    have hsome : h.past.getLast?.isSome := List.getLast?_isSome.mpr hne
    obtain ⟨prev, hprev⟩ := Option.isSome_iff_exists.mp hsome
    simp [History.undo, hprev]

/-- Witness for C1 at a concrete history of depth 2 holding two snapshots. -/
theorem history_push_depth_invariant_witness :
    (({ past := [1, 2], future := [5], max_size := 2 } : History ℕ).push 3).future = [] ∧
    (({ past := [1, 2], future := [5], max_size := 2 } : History ℕ).push 3).past.length ≤ 2 ∧
    (({ past := [1, 2], future := [5], max_size := 2 } : History ℕ).push 3).past = [2, 3] ∧
    ((({ past := [1, 2], future := [5], max_size := 2 } : History ℕ).undo 7).2).future = [5, 7] := by
  have happ := history_push_depth_invariant
    ({ past := [1, 2], future := [5], max_size := 2 } : History ℕ) 3
  refine ⟨happ.1, happ.2.1, ?_, ?_⟩
  · rw [happ.2.2.1]
    decide
  · have hfut := happ.2.2.2 7 (by decide)
    rw [hfut]
    decide

/-- C4: if undo on the live value returns a previous snapshot, then redo
on that snapshot immediately returns the original live value and restores
the history (both stacks and the bound) exactly as before the undo. -/
theorem undo_redo_restores_state {T : Type} (h h2 : History T)
    (current prev : T) (hu : h.undo current = (some prev, h2)) :
    h2.redo prev = (some current, h) := by
  rcases hlast : h.past.getLast? with _ | p
  · rw [History.undo, hlast] at hu
    simp at hu
  · rw [History.undo, hlast] at hu
    simp only [Prod.mk.injEq, Option.some.injEq] at hu
    obtain ⟨hp, hh2⟩ := hu
    subst hp
    rw [← hh2]
    rw [History.redo]
    simp only [List.getLast?_concat, List.dropLast_concat]
    have hrestore : h.past.dropLast ++ [p] = h.past :=
      dropLast_append_of_getLastEq hlast
    rw [hrestore]

/-- Witness for C4: undo from past [10, 20] with live value 30 yields 20,
and redo with 20 returns 30 and the original stacks. -/
theorem undo_redo_restores_state_witness :
    ({ past := [10], future := [30], max_size := 100 } : History ℕ).redo 20 =
      (some 30, ({ past := [10, 20], future := [], max_size := 100 } : History ℕ)) :=
  undo_redo_restores_state
    ({ past := [10, 20], future := [], max_size := 100 } : History ℕ)
    ({ past := [10], future := [30], max_size := 100 } : History ℕ)
    30 20 (by decide)

/-- C2: for every camera with zoom > 0, world_to_screen and
screen_to_world are exact inverses of one another (the rational embedding
makes the round trip exact, which is within any floating-point
tolerance). -/
theorem camera_round_trip_inverse (c : Camera) (hz : 0 < c.zoom)
    (sx sy wx wy : ℚ) :
    c.world_to_screen (c.screen_to_world sx sy).1 (c.screen_to_world sx sy).2 = (sx, sy) ∧
    c.screen_to_world (c.world_to_screen wx wy).1 (c.world_to_screen wx wy).2 = (wx, wy) := by
  have hz0 : c.zoom ≠ 0 := ne_of_gt hz
  constructor
  · simp only [Camera.screen_to_world, Camera.world_to_screen, Prod.mk.injEq]
    constructor <;> field_simp <;> ring
  · simp only [Camera.screen_to_world, Camera.world_to_screen, Prod.mk.injEq]
    constructor <;> field_simp

/-- Witness for C2 at camera (123, 456, zoom 3/2) and the points used by
the round-trip unit tests in state.rs. -/
theorem camera_round_trip_inverse_witness :
    (({ x := 123, y := 456, zoom := 2 } : Camera).world_to_screen
        (({ x := 123, y := 456, zoom := 2 } : Camera).screen_to_world 300 400).1
        (({ x := 123, y := 456, zoom := 2 } : Camera).screen_to_world 300 400).2 = (300, 400)) ∧
    (({ x := 123, y := 456, zoom := 2 } : Camera).screen_to_world
        (({ x := 123, y := 456, zoom := 2 } : Camera).world_to_screen 500 600).1
        (({ x := 123, y := 456, zoom := 2 } : Camera).world_to_screen 500 600).2 = (500, 600)) :=
  camera_round_trip_inverse ({ x := 123, y := 456, zoom := 2 } : Camera)
    (by decide) 300 400 500 600

/-- C3: after the wheel-zoom update the world point under the screen
anchor is unchanged, for both zoom directions (every sign of delta_y),
and the updated zoom stays in the clamp range 0.1 ..= 5.0. -/
theorem wheel_zoom_anchor_invariant (c : Camera)
    (canvas_x canvas_y delta_y : ℚ) :
    (onWheel c canvas_x canvas_y delta_y).screen_to_world canvas_x canvas_y =
      c.screen_to_world canvas_x canvas_y ∧
    1/10 ≤ (onWheel c canvas_x canvas_y delta_y).zoom ∧
    (onWheel c canvas_x canvas_y delta_y).zoom ≤ 5 := by
  refine ⟨?_, ?_, ?_⟩
  · simp only [onWheel, Camera.screen_to_world, Prod.mk.injEq]
    constructor <;> ring
  · simp only [onWheel, rclamp]
    exact le_min (le_trans (le_max_right _ _) (le_refl _)) (by norm_num)
  · simp only [onWheel, rclamp]
    exact min_le_right _ _

/-- C5: during a resize gesture (any of the four handles), the resulting
width is at least MIN_NODE_WIDTH and the height at least MIN_NODE_HEIGHT
for every pointer delta (including when the clamp takes effect), and the
corner opposite the dragged handle keeps the original world coordinates
recorded at gesture start. -/
theorem resize_min_dims_and_opposite_corner (rs : ResizeState)
    (hd : ResizeHandle) (hh : rs.handle = some hd) (n : Node)
    (hx : n.x = rs.original_x) (hy : n.y = rs.original_y) (dx dy : ℚ) :
    MIN_NODE_WIDTH ≤ (resizeUpdateNode rs dx dy n).width ∧
    MIN_NODE_HEIGHT ≤ (resizeUpdateNode rs dx dy n).height ∧
    oppositeCorner hd (resizeUpdateNode rs dx dy n).x
        (resizeUpdateNode rs dx dy n).y
        (resizeUpdateNode rs dx dy n).width
        (resizeUpdateNode rs dx dy n).height =
      oppositeCorner hd rs.original_x rs.original_y
        rs.original_width rs.original_height := by
  cases hd with
  | TopLeft =>
      simp only [resizeUpdateNode, hh, oppositeCorner, hx, hy, Prod.mk.injEq]
      exact ⟨le_sup_right, le_sup_right, by ring, by ring⟩
  | TopRight =>
      simp only [resizeUpdateNode, hh, oppositeCorner, hx, hy, Prod.mk.injEq]
      exact ⟨le_sup_right, le_sup_right, trivial, by ring⟩
  | BottomLeft =>
      simp only [resizeUpdateNode, hh, oppositeCorner, hx, hy, Prod.mk.injEq]
      exact ⟨le_sup_right, le_sup_right, by ring, trivial⟩
  | BottomRight =>
      simp only [resizeUpdateNode, hh, oppositeCorner, hx, hy, Prod.mk.injEq]
      exact ⟨le_sup_right, le_sup_right, trivial⟩

/-- Witness for C5: a top-left resize with a delta large enough to hit
both minimum clamps keeps the bottom-right corner at (300, 200) and
clamps the size to 50 x 30. -/
theorem resize_min_dims_and_opposite_corner_witness :
    MIN_NODE_WIDTH ≤ (resizeUpdateNode
      { is_resizing := true, node_id := some "n", handle := some ResizeHandle.TopLeft,
        start_mouse_x := 0, start_mouse_y := 0, original_x := 100, original_y := 100,
        original_width := 200, original_height := 100 } 1000 1000
      (Node.new "n" 100 100 "")).width ∧
    MIN_NODE_HEIGHT ≤ (resizeUpdateNode
      { is_resizing := true, node_id := some "n", handle := some ResizeHandle.TopLeft,
        start_mouse_x := 0, start_mouse_y := 0, original_x := 100, original_y := 100,
        original_width := 200, original_height := 100 } 1000 1000
      (Node.new "n" 100 100 "")).height ∧
    oppositeCorner ResizeHandle.TopLeft
        (resizeUpdateNode
          { is_resizing := true, node_id := some "n", handle := some ResizeHandle.TopLeft,
            start_mouse_x := 0, start_mouse_y := 0, original_x := 100, original_y := 100,
            original_width := 200, original_height := 100 } 1000 1000
          (Node.new "n" 100 100 "")).x
        (resizeUpdateNode
          { is_resizing := true, node_id := some "n", handle := some ResizeHandle.TopLeft,
            start_mouse_x := 0, start_mouse_y := 0, original_x := 100, original_y := 100,
            original_width := 200, original_height := 100 } 1000 1000
          (Node.new "n" 100 100 "")).y
        (resizeUpdateNode
          { is_resizing := true, node_id := some "n", handle := some ResizeHandle.TopLeft,
            start_mouse_x := 0, start_mouse_y := 0, original_x := 100, original_y := 100,
            original_width := 200, original_height := 100 } 1000 1000
          (Node.new "n" 100 100 "")).width
        (resizeUpdateNode
          { is_resizing := true, node_id := some "n", handle := some ResizeHandle.TopLeft,
            start_mouse_x := 0, start_mouse_y := 0, original_x := 100, original_y := 100,
            original_width := 200, original_height := 100 } 1000 1000
          (Node.new "n" 100 100 "")).height =
      oppositeCorner ResizeHandle.TopLeft 100 100 200 100 :=
  resize_min_dims_and_opposite_corner
    { is_resizing := true, node_id := some "n", handle := some ResizeHandle.TopLeft,
      start_mouse_x := 0, start_mouse_y := 0, original_x := 100, original_y := 100,
      original_width := 200, original_height := 100 }
    ResizeHandle.TopLeft rfl (Node.new "n" 100 100 "") rfl rfl 1000 1000

/-- C6: with a non-empty node selection (and no selected edge), the
delete command pushes exactly one snapshot of the pre-mutation board,
removes exactly the selected nodes and every edge with a selected
endpoint, and keeps all other nodes and edges (in order, as the sublist
conjuncts state). -/
theorem delete_removes_selected_and_incident_edges
    (hist : History Board) (selected : List String) (b : Board)
    (hne : selected ≠ []) :
    (onKeyDownDelete hist selected none b).1 = hist.push b ∧
    (∀ n : Node, n ∈ (onKeyDownDelete hist selected none b).2.nodes ↔
      n ∈ b.nodes ∧ n.id ∉ selected) ∧
    (∀ e : Edge, e ∈ (onKeyDownDelete hist selected none b).2.edges ↔
      e ∈ b.edges ∧ e.from_node ∉ selected ∧ e.to_node ∉ selected) ∧
    (onKeyDownDelete hist selected none b).2.nodes.Sublist b.nodes ∧
    (onKeyDownDelete hist selected none b).2.edges.Sublist b.edges := by
  have hne2 : selected.isEmpty = false := by
    cases selected with
    | nil => exact absurd rfl hne
    | cons a t => rfl
  refine ⟨?_, ?_, ?_, ?_, ?_⟩
  · simp [onKeyDownDelete, hne2]
  · intro n
    simp [onKeyDownDelete, hne2, List.mem_filter]
  · intro e
    simp [onKeyDownDelete, hne2, List.mem_filter]
  · simp only [onKeyDownDelete, hne2, Bool.false_eq_true, if_false]
    exact List.filter_sublist b.nodes
  · simp only [onKeyDownDelete, hne2, Bool.false_eq_true, if_false]
    exact List.filter_sublist b.edges

/-- Witness for C6: deleting selection [A, B] from a three-node board
with edges A-B and B-C removes A, B and both edges and keeps C. -/
theorem delete_removes_selected_and_incident_edges_witness :
    (onKeyDownDelete (History.new Board 100) ["A", "B"] none
      { nodes := [Node.new "A" 0 0 "", Node.new "B" 300 0 "", Node.new "C" 600 0 ""],
        edges := [{ id := "e1", from_node := "A", to_node := "B", label := none },
                  { id := "e2", from_node := "B", to_node := "C", label := none }] }).1 =
      (History.new Board 100).push
        { nodes := [Node.new "A" 0 0 "", Node.new "B" 300 0 "", Node.new "C" 600 0 ""],
          edges := [{ id := "e1", from_node := "A", to_node := "B", label := none },
                    { id := "e2", from_node := "B", to_node := "C", label := none }] } ∧
    (Node.new "C" 600 0 "" ∈ (onKeyDownDelete (History.new Board 100) ["A", "B"] none
      { nodes := [Node.new "A" 0 0 "", Node.new "B" 300 0 "", Node.new "C" 600 0 ""],
        edges := [{ id := "e1", from_node := "A", to_node := "B", label := none },
                  { id := "e2", from_node := "B", to_node := "C", label := none }] }).2.nodes) ∧
    (Node.new "A" 0 0 "" ∉ (onKeyDownDelete (History.new Board 100) ["A", "B"] none
      { nodes := [Node.new "A" 0 0 "", Node.new "B" 300 0 "", Node.new "C" 600 0 ""],
        edges := [{ id := "e1", from_node := "A", to_node := "B", label := none },
                  { id := "e2", from_node := "B", to_node := "C", label := none }] }).2.nodes) ∧
    ({ id := "e2", from_node := "B", to_node := "C", label := none } ∉
      (onKeyDownDelete (History.new Board 100) ["A", "B"] none
      { nodes := [Node.new "A" 0 0 "", Node.new "B" 300 0 "", Node.new "C" 600 0 ""],
        edges := [{ id := "e1", from_node := "A", to_node := "B", label := none },
                  { id := "e2", from_node := "B", to_node := "C", label := none }] }).2.edges) := by
  have happ := delete_removes_selected_and_incident_edges
    (History.new Board 100) ["A", "B"]
    { nodes := [Node.new "A" 0 0 "", Node.new "B" 300 0 "", Node.new "C" 600 0 ""],
      edges := [{ id := "e1", from_node := "A", to_node := "B", label := none },
                { id := "e2", from_node := "B", to_node := "C", label := none }] }
    (by decide)
  refine ⟨happ.1, ?_, ?_, ?_⟩
  · exact (happ.2.1 (Node.new "C" 600 0 "")).mpr (by simp [Node.new])
  · intro hmem
    have hc := (happ.2.1 (Node.new "A" 0 0 "")).mp hmem
    simp [Node.new] at hc
  · intro hmem
    have hc := (happ.2.2.1 { id := "e2", from_node := "B", to_node := "C", label := none }).mp hmem
    simp at hc

/-- C7: releasing an edge-creation gesture over no node, or over the
source node itself, leaves history and board untouched; only a release
over a different node (which is an existing node of the board) appends
one edge from the source to the target, with exactly one snapshot of the
pre-mutation board pushed first. -/
theorem edge_creation_requires_distinct_target
    (hist : History Board) (from_id : String) (b : Board) (wx wy : ℚ)
    (fid : String) :
    (findTopmostNodeAt b.nodes wx wy = none →
       onMouseUpCreatingEdge hist from_id b wx wy fid = (hist, b)) ∧
    (∀ t : Node, findTopmostNodeAt b.nodes wx wy = some t → t.id = from_id →
       onMouseUpCreatingEdge hist from_id b wx wy fid = (hist, b)) ∧
    (∀ t : Node, findTopmostNodeAt b.nodes wx wy = some t → t.id ≠ from_id →
       onMouseUpCreatingEdge hist from_id b wx wy fid =
         (hist.push b,
          { b with edges := b.edges ++
              [{ id := fid, from_node := from_id, to_node := t.id,
                 label := none }] }) ∧
       t ∈ b.nodes) := by
  refine ⟨?_, ?_, ?_⟩
  · intro hnone
    simp [onMouseUpCreatingEdge, hnone]
  · intro t ht hsame
    simp [onMouseUpCreatingEdge, ht, hsame]
  · intro t ht hdiff
    refine ⟨by simp [onMouseUpCreatingEdge, ht, hdiff], ?_⟩
    have hmem : t ∈ b.nodes.reverse := List.mem_of_find?_eq_some ht
    exact List.mem_reverse.mp hmem

/-- Witness for C7: on a board with nodes A and B, releasing over A with
source A adds nothing, releasing over empty space adds nothing, and
releasing over B with source A appends edge A to B after one snapshot. -/
theorem edge_creation_requires_distinct_target_witness :
    (onMouseUpCreatingEdge (History.new Board 100) "A"
      { nodes := [Node.new "A" 0 0 "", Node.new "B" 300 0 ""], edges := [] }
      1000 1000 "e9" =
      (History.new Board 100,
       { nodes := [Node.new "A" 0 0 "", Node.new "B" 300 0 ""], edges := [] })) ∧
    (onMouseUpCreatingEdge (History.new Board 100) "A"
      { nodes := [Node.new "A" 0 0 "", Node.new "B" 300 0 ""], edges := [] }
      100 50 "e9" =
      (History.new Board 100,
       { nodes := [Node.new "A" 0 0 "", Node.new "B" 300 0 ""], edges := [] })) ∧
    (onMouseUpCreatingEdge (History.new Board 100) "A"
      { nodes := [Node.new "A" 0 0 "", Node.new "B" 300 0 ""], edges := [] }
      400 50 "e9" =
      ((History.new Board 100).push
        { nodes := [Node.new "A" 0 0 "", Node.new "B" 300 0 ""], edges := [] },
       { nodes := [Node.new "A" 0 0 "", Node.new "B" 300 0 ""],
         edges := [{ id := "e9", from_node := "A", to_node := "B",
                     label := none }] })) := by
  have h1 := (edge_creation_requires_distinct_target (History.new Board 100) "A"
    { nodes := [Node.new "A" 0 0 "", Node.new "B" 300 0 ""], edges := [] }
    1000 1000 "e9").1
    (by norm_num [findTopmostNodeAt, Node.contains_point, Node.new])
  have h2 := (edge_creation_requires_distinct_target (History.new Board 100) "A"
    { nodes := [Node.new "A" 0 0 "", Node.new "B" 300 0 ""], edges := [] }
    100 50 "e9").2.1 (Node.new "A" 0 0 "")
    (by norm_num [findTopmostNodeAt, Node.contains_point, Node.new]) rfl
  have h3 := (edge_creation_requires_distinct_target (History.new Board 100) "A"
    { nodes := [Node.new "A" 0 0 "", Node.new "B" 300 0 ""], edges := [] }
    400 50 "e9").2.2 (Node.new "B" 300 0 "")
    (by norm_num [findTopmostNodeAt, Node.contains_point, Node.new])
    (by simp [Node.new])
  exact ⟨h1, h2, h3.1⟩

/-- C8: double-clicking empty canvas at world point (wx, wy) pushes one
snapshot of the pre-mutation board, appends exactly one new node of the
default 200 x 100 size at position (wx - 100, wy - 50), makes it the sole
selection, and enters edit mode on it. -/
theorem double_click_empty_creates_centered_node
    (hist : History Board) (b : Board) (cam : Camera) (cx cy : ℚ)
    (fid : String) (selected : List String) (editing : Option String)
    (hempty : findTopmostNodeAt b.nodes (cam.screen_to_world cx cy).1
      (cam.screen_to_world cx cy).2 = none) :
    onDoubleClick hist b cam cx cy fid selected editing =
      (hist.push b,
       { b with nodes := b.nodes ++
           [Node.new fid ((cam.screen_to_world cx cy).1 - 100)
             ((cam.screen_to_world cx cy).2 - 50) "New Node"] },
       [fid], some fid) ∧
    (Node.new fid ((cam.screen_to_world cx cy).1 - 100)
      ((cam.screen_to_world cx cy).2 - 50) "New Node").width = 200 ∧
    (Node.new fid ((cam.screen_to_world cx cy).1 - 100)
      ((cam.screen_to_world cx cy).2 - 50) "New Node").height = 100 := by
  refine ⟨?_, rfl, rfl⟩
  simp only [onDoubleClick, hempty]

/-- Witness for C8: double-click on an empty board at screen (50, 50)
with the default camera creates the node at world position (-50, 0). -/
theorem double_click_empty_creates_centered_node_witness :
    onDoubleClick (History.new Board 100) { nodes := [], edges := [] }
      Camera.new 50 50 "X" [] none =
      ((History.new Board 100).push { nodes := [], edges := [] },
       { nodes := [Node.new "X" ((Camera.new.screen_to_world 50 50).1 - 100)
           ((Camera.new.screen_to_world 50 50).2 - 50) "New Node"],
         edges := [] },
       ["X"], some "X") ∧
    (Node.new "X" ((Camera.new.screen_to_world 50 50).1 - 100)
      ((Camera.new.screen_to_world 50 50).2 - 50) "New Node").x = -50 ∧
    (Node.new "X" ((Camera.new.screen_to_world 50 50).1 - 100)
      ((Camera.new.screen_to_world 50 50).2 - 50) "New Node").y = 0 := by
  have happ := double_click_empty_creates_centered_node
    (History.new Board 100) { nodes := [], edges := [] } Camera.new
    50 50 "X" [] none rfl
  refine ⟨?_, ?_, ?_⟩
  · have hmain := happ.1
    simpa using hmain
  · norm_num [Node.new, Camera.new, Camera.screen_to_world]
  · norm_num [Node.new, Camera.new, Camera.screen_to_world]

/-- C9: delete_asset returns a descriptive error and deletes nothing when
the path does not canonicalize, when the assets directory does not
canonicalize, or when the canonical path lies outside the assets
directory; and whenever it succeeds, the canonical path lay inside the
assets directory and exactly that file was removed. -/
theorem delete_asset_scoped_to_assets_dir (fs : FileSys)
    (cwd path : List String) :
    (fs.canon path = none →
       delete_asset fs cwd path = Except.error "File not found") ∧
    (∀ cf, fs.canon path = some cf →
       fs.canon (cwd ++ ["assets"]) = none →
       delete_asset fs cwd path = Except.error "Assets folder not found") ∧
    (∀ cf ca, fs.canon path = some cf →
       fs.canon (cwd ++ ["assets"]) = some ca →
       ca.isPrefixOf cf = false →
       delete_asset fs cwd path =
         Except.error "Can only delete files from assets folder") ∧
    (∀ fs2, delete_asset fs cwd path = Except.ok fs2 →
       ∃ cf ca, fs.canon path = some cf ∧
         fs.canon (cwd ++ ["assets"]) = some ca ∧
         ca.isPrefixOf cf = true ∧
         fs2.files = fs.files.filter (fun f => f ≠ cf)) := by
  refine ⟨?_, ?_, ?_, ?_⟩
  · intro hnone
    simp [delete_asset, hnone]
  · intro cf hcf hnone
    simp [delete_asset, hcf, hnone]
  · intro cf ca hcf hca hout
    simp [delete_asset, hcf, hca, hout]
  · intro fs2 hok
    rcases hcf : fs.canon path with _ | cf
    · simp [delete_asset, hcf] at hok
    · rcases hca : fs.canon (cwd ++ ["assets"]) with _ | ca
      · simp [delete_asset, hcf, hca] at hok
      · rcases hpre : ca.isPrefixOf cf with _ | _
        · simp [delete_asset, hcf, hca, hpre] at hok
        · refine ⟨cf, ca, by simp [hcf], by simp [hca], hpre, ?_⟩
          simp only [delete_asset, hcf, hca, hpre, if_true,
            Except.ok.injEq] at hok
          rw [← hok]

/-- Witness for C9 on a concrete file system: a missing path and a path
outside cwd/assets are rejected, and a path inside cwd/assets is removed. -/
theorem delete_asset_scoped_to_assets_dir_witness :
    (delete_asset
      { canon := fun p =>
          if p = ["root", "assets", "img.png"] then some ["root", "assets", "img.png"]
          else if p = ["root", "assets"] then some ["root", "assets"]
          else if p = ["root", "secret.txt"] then some ["root", "secret.txt"]
          else none,
        files := [["root", "assets", "img.png"], ["root", "secret.txt"]] }
      ["root"] ["missing.png"] = Except.error "File not found") ∧
    (delete_asset
      { canon := fun p =>
          if p = ["root", "assets", "img.png"] then some ["root", "assets", "img.png"]
          else if p = ["root", "assets"] then some ["root", "assets"]
          else if p = ["root", "secret.txt"] then some ["root", "secret.txt"]
          else none,
        files := [["root", "assets", "img.png"], ["root", "secret.txt"]] }
      ["root"] ["root", "secret.txt"] =
        Except.error "Can only delete files from assets folder") ∧
    (∃ cf ca,
      ({ canon := fun p =>
           if p = ["root", "assets", "img.png"] then some ["root", "assets", "img.png"]
           else if p = ["root", "assets"] then some ["root", "assets"]
           else if p = ["root", "secret.txt"] then some ["root", "secret.txt"]
           else none,
         files := [["root", "assets", "img.png"], ["root", "secret.txt"]] } :
           FileSys).canon ["root", "assets", "img.png"] = some cf ∧
      ({ canon := fun p =>
           if p = ["root", "assets", "img.png"] then some ["root", "assets", "img.png"]
           else if p = ["root", "assets"] then some ["root", "assets"]
           else if p = ["root", "secret.txt"] then some ["root", "secret.txt"]
           else none,
         files := [["root", "assets", "img.png"], ["root", "secret.txt"]] } :
           FileSys).canon (["root"] ++ ["assets"]) = some ca ∧
      ca.isPrefixOf cf = true ∧
      ({ canon := fun p =>
           if p = ["root", "assets", "img.png"] then some ["root", "assets", "img.png"]
           else if p = ["root", "assets"] then some ["root", "assets"]
           else if p = ["root", "secret.txt"] then some ["root", "secret.txt"]
           else none,
         files := [["root", "secret.txt"]] } : FileSys).files =
        ({ canon := fun p =>
             if p = ["root", "assets", "img.png"] then some ["root", "assets", "img.png"]
             else if p = ["root", "assets"] then some ["root", "assets"]
             else if p = ["root", "secret.txt"] then some ["root", "secret.txt"]
             else none,
           files := [["root", "assets", "img.png"], ["root", "secret.txt"]] } :
             FileSys).files.filter (fun f => f ≠ cf)) := by
  refine ⟨?_, ?_, ?_⟩
  · exact (delete_asset_scoped_to_assets_dir _ ["root"] ["missing.png"]).1
      (by decide)
  · exact (delete_asset_scoped_to_assets_dir _ ["root"]
      ["root", "secret.txt"]).2.2.1 ["root", "secret.txt"] ["root", "assets"]
      (by decide) (by decide) (by decide)
  · have hinv := (delete_asset_scoped_to_assets_dir
      { canon := fun p =>
          if p = ["root", "assets", "img.png"] then some ["root", "assets", "img.png"]
          else if p = ["root", "assets"] then some ["root", "assets"]
          else if p = ["root", "secret.txt"] then some ["root", "secret.txt"]
          else none,
        files := [["root", "assets", "img.png"], ["root", "secret.txt"]] }
      ["root"] ["root", "assets", "img.png"]).2.2.2
      { canon := fun p =>
          if p = ["root", "assets", "img.png"] then some ["root", "assets", "img.png"]
          else if p = ["root", "assets"] then some ["root", "assets"]
          else if p = ["root", "secret.txt"] then some ["root", "secret.txt"]
          else none,
        files := [["root", "secret.txt"]] }
      (by simp [delete_asset])
    exact hinv

/-- Looking up a copied node id in the freshly built id map yields its
fresh id. -/
theorem lookupId_map_eq (nodes : List Node) (f : String → String)
    (k : String) (hk : k ∈ nodes.map Node.id) :
    lookupId (nodes.map (fun n => (n.id, f n.id))) k = f k := by
  induction nodes with
  | nil => simp at hk
  | cons n rest ih =>
      by_cases hnk : n.id = k
      · simp [lookupId, List.find?, hnk]
      · have hk2 : k ∈ rest.map Node.id := by
          simp only [List.map_cons, List.mem_cons] at hk
          rcases hk with h1 | h1
          · exact absurd h1.symm hnk
          · exact h1
        have hrec := ih hk2
        simpa [lookupId, List.find?, hnk] using hrec

/-- Copied node ids are exactly the selected ids that exist on the board,
so every id selected on the source board appears among the copied nodes. -/
theorem selected_mem_copied_ids (selected0 : List String) (b0 : Board)
    (hsel : ∀ s ∈ selected0, s ∈ b0.nodes.map Node.id)
    (s : String) (hs : s ∈ selected0) :
    s ∈ (copySelection selected0 b0).1.map Node.id := by
  obtain ⟨m, hm, hms⟩ := List.mem_map.mp (hsel s hs)
  refine List.mem_map.mpr ⟨m, ?_, hms⟩
  refine List.mem_filter.mpr ⟨hm, ?_⟩
  simp only [List.contains_iff_exists_mem_beq]
  exact ⟨s, hs, by simp [hms]⟩

/-- C10: for a non-empty internal clipboard produced by the copy command
(over a selection whose ids exist on a source board with no duplicate
ids), pasting with collision-free fresh ids (the uuid generator is
modelled as a function that is injective on the copied ids and avoids
every existing id of the paste-time board) pushes one snapshot, appends
node clones whose ids are exactly the fresh images of the copied ids,
keeps the node-id list duplicate-free, and only appends edges that are
clones of copied edges, rewired so that both endpoints are pasted nodes:
every edge of the resulting board is an old edge or references pasted
node ids. Copied edges always have both endpoints among the copied nodes
(first conjunct), so the rewiring is total. -/
theorem paste_fresh_ids_and_closed_edges
    (selected0 : List String) (b0 : Board)
    (hsel : ∀ s ∈ selected0, s ∈ b0.nodes.map Node.id)
    (h0nodup : (b0.nodes.map Node.id).Nodup)
    (newIdOf newEdgeIdOf : String → String)
    (hist : History Board) (b : Board) (selected : List String)
    (mouse_x mouse_y : ℚ)
    (hne : (copySelection selected0 b0).1 ≠ [])
    (hbnodup : (b.nodes.map Node.id).Nodup)
    (hfresh : ∀ n ∈ (copySelection selected0 b0).1,
       newIdOf n.id ∉ b.nodes.map Node.id)
    (hinj : ∀ n ∈ (copySelection selected0 b0).1,
       ∀ m ∈ (copySelection selected0 b0).1,
       newIdOf n.id = newIdOf m.id → n.id = m.id) :
    (∀ e ∈ (copySelection selected0 b0).2,
       e.from_node ∈ (copySelection selected0 b0).1.map Node.id ∧
       e.to_node ∈ (copySelection selected0 b0).1.map Node.id) ∧
    (pasteClipboard (copySelection selected0 b0) newIdOf newEdgeIdOf
       mouse_x mouse_y hist b selected).1 = hist.push b ∧
    (pasteClipboard (copySelection selected0 b0) newIdOf newEdgeIdOf
       mouse_x mouse_y hist b selected).2.1.nodes.map Node.id =
      b.nodes.map Node.id ++
        (copySelection selected0 b0).1.map (fun n => newIdOf n.id) ∧
    ((pasteClipboard (copySelection selected0 b0) newIdOf newEdgeIdOf
       mouse_x mouse_y hist b selected).2.1.nodes.map Node.id).Nodup ∧
    (∀ e ∈ (pasteClipboard (copySelection selected0 b0) newIdOf newEdgeIdOf
       mouse_x mouse_y hist b selected).2.1.edges,
       e ∈ b.edges ∨
       (e.from_node ∈ (pasteClipboard (copySelection selected0 b0) newIdOf
          newEdgeIdOf mouse_x mouse_y hist b selected).2.1.nodes.map Node.id ∧
        e.to_node ∈ (pasteClipboard (copySelection selected0 b0) newIdOf
          newEdgeIdOf mouse_x mouse_y hist b selected).2.1.nodes.map Node.id)) := by
  have hne2 : (copySelection selected0 b0).1.isEmpty = false := by
    rcases hcase : (copySelection selected0 b0).1 with _ | ⟨n, t⟩
    · exact absurd hcase hne
    · rfl
  have hclosed : ∀ e ∈ (copySelection selected0 b0).2,
      e.from_node ∈ (copySelection selected0 b0).1.map Node.id ∧
      e.to_node ∈ (copySelection selected0 b0).1.map Node.id := by
    intro e he
    simp only [copySelection] at he
    obtain ⟨he0, hcond⟩ := List.mem_filter.mp he
    rw [Bool.and_eq_true] at hcond
    obtain ⟨hf, ht⟩ := hcond
    have hf2 : e.from_node ∈ selected0 := by simpa using hf
    have ht2 : e.to_node ∈ selected0 := by simpa using ht
    exact ⟨selected_mem_copied_ids selected0 b0 hsel _ hf2,
           selected_mem_copied_ids selected0 b0 hsel _ ht2⟩
  have hsubl : (copySelection selected0 b0).1.Sublist b0.nodes := by
    simp only [copySelection]
    exact List.filter_sublist b0.nodes
  have hids_nodup : ((copySelection selected0 b0).1.map Node.id).Nodup :=
    h0nodup.sublist (hsubl.map Node.id)
  have hfresh_nodup :
      ((copySelection selected0 b0).1.map (fun n => newIdOf n.id)).Nodup := by
    have hmm : (copySelection selected0 b0).1.map (fun n => newIdOf n.id) =
        ((copySelection selected0 b0).1.map Node.id).map newIdOf := by
      rw [List.map_map]
      rfl
    rw [hmm]
    refine List.Nodup.map_on ?_ hids_nodup
    intro x hx y hy hxy
    obtain ⟨nx, hnx, hnxid⟩ := List.mem_map.mp hx
    obtain ⟨ny, hny, hnyid⟩ := List.mem_map.mp hy
    subst hnxid
    subst hnyid
    exact hinj nx hnx ny hny hxy
  have hdisj : (b.nodes.map Node.id).Disjoint
      ((copySelection selected0 b0).1.map (fun n => newIdOf n.id)) := by
    intro a ha hafresh
    obtain ⟨n, hn, hna⟩ := List.mem_map.mp hafresh
    rw [← hna] at ha
    exact hfresh n hn ha
  have hmapids : (pasteClipboard (copySelection selected0 b0) newIdOf
      newEdgeIdOf mouse_x mouse_y hist b selected).2.1.nodes.map Node.id =
      b.nodes.map Node.id ++
        (copySelection selected0 b0).1.map (fun n => newIdOf n.id) := by
    simp only [pasteClipboard, hne2, Bool.false_eq_true, if_false]
    rw [List.map_append, List.map_map]
    congr 1
    refine List.map_congr_left ?_
    intro n hn
    simp only [Function.comp]
    exact lookupId_map_eq _ newIdOf n.id (List.mem_map_of_mem Node.id hn)
  refine ⟨hclosed, ?_, hmapids, ?_, ?_⟩
  · simp only [pasteClipboard, hne2, Bool.false_eq_true, if_false]
  · rw [hmapids]
    exact hbnodup.append hfresh_nodup hdisj
  · intro e he
    simp only [pasteClipboard, hne2, Bool.false_eq_true, if_false] at he
    rcases List.mem_append.mp he with hold | hnew
    · exact Or.inl hold
    · right
      obtain ⟨e0, he0, hee⟩ := List.mem_map.mp hnew
      obtain ⟨hfrom, hto⟩ := hclosed e0 he0
      rw [hmapids]
      constructor
      · rw [← hee]
        refine List.mem_append.mpr (Or.inr ?_)
        obtain ⟨m, hm, hmid⟩ := List.mem_map.mp hfrom
        have hlk : lookupId ((copySelection selected0 b0).1.map
            (fun n => (n.id, newIdOf n.id))) e0.from_node = newIdOf e0.from_node :=
          lookupId_map_eq _ newIdOf e0.from_node hfrom
        simp only [hlk]
        rw [← hmid]
        exact List.mem_map_of_mem (fun n => newIdOf n.id) hm
      · rw [← hee]
        refine List.mem_append.mpr (Or.inr ?_)
        obtain ⟨m, hm, hmid⟩ := List.mem_map.mp hto
        have hlk : lookupId ((copySelection selected0 b0).1.map
            (fun n => (n.id, newIdOf n.id))) e0.to_node = newIdOf e0.to_node :=
          lookupId_map_eq _ newIdOf e0.to_node hto
        simp only [hlk]
        rw [← hmid]
        exact List.mem_map_of_mem (fun n => newIdOf n.id) hm

/-- Witness for C10: copying the whole two-node board with its edge and
pasting it back with fresh ids appending the character 1 inserts nodes A1
and B1 and an edge A1-B1, with no duplicate ids. -/
theorem paste_fresh_ids_and_closed_edges_witness :
    (∀ e ∈ (copySelection ["A", "B"]
        { nodes := [Node.new "A" 0 0 "", Node.new "B" 300 0 ""],
          edges := [{ id := "e1", from_node := "A", to_node := "B", label := none }] }).2,
       e.from_node ∈ (copySelection ["A", "B"]
        { nodes := [Node.new "A" 0 0 "", Node.new "B" 300 0 ""],
          edges := [{ id := "e1", from_node := "A", to_node := "B", label := none }] }).1.map Node.id ∧
       e.to_node ∈ (copySelection ["A", "B"]
        { nodes := [Node.new "A" 0 0 "", Node.new "B" 300 0 ""],
          edges := [{ id := "e1", from_node := "A", to_node := "B", label := none }] }).1.map Node.id) ∧
    (pasteClipboard (copySelection ["A", "B"]
        { nodes := [Node.new "A" 0 0 "", Node.new "B" 300 0 ""],
          edges := [{ id := "e1", from_node := "A", to_node := "B", label := none }] })
       (fun s => s ++ "1") (fun s => s ++ "1") 0 0 (History.new Board 100)
       { nodes := [Node.new "A" 0 0 "", Node.new "B" 300 0 ""],
         edges := [{ id := "e1", from_node := "A", to_node := "B", label := none }] }
       ["A", "B"]).1 =
      (History.new Board 100).push
        { nodes := [Node.new "A" 0 0 "", Node.new "B" 300 0 ""],
          edges := [{ id := "e1", from_node := "A", to_node := "B", label := none }] } ∧
    (pasteClipboard (copySelection ["A", "B"]
        { nodes := [Node.new "A" 0 0 "", Node.new "B" 300 0 ""],
          edges := [{ id := "e1", from_node := "A", to_node := "B", label := none }] })
       (fun s => s ++ "1") (fun s => s ++ "1") 0 0 (History.new Board 100)
       { nodes := [Node.new "A" 0 0 "", Node.new "B" 300 0 ""],
         edges := [{ id := "e1", from_node := "A", to_node := "B", label := none }] }
       ["A", "B"]).2.1.nodes.map Node.id =
      ({ nodes := [Node.new "A" 0 0 "", Node.new "B" 300 0 ""],
         edges := [{ id := "e1", from_node := "A", to_node := "B", label := none }] } : Board).nodes.map Node.id ++
        (copySelection ["A", "B"]
          { nodes := [Node.new "A" 0 0 "", Node.new "B" 300 0 ""],
            edges := [{ id := "e1", from_node := "A", to_node := "B", label := none }] }).1.map
          (fun n => n.id ++ "1") ∧
    ((pasteClipboard (copySelection ["A", "B"]
        { nodes := [Node.new "A" 0 0 "", Node.new "B" 300 0 ""],
          edges := [{ id := "e1", from_node := "A", to_node := "B", label := none }] })
       (fun s => s ++ "1") (fun s => s ++ "1") 0 0 (History.new Board 100)
       { nodes := [Node.new "A" 0 0 "", Node.new "B" 300 0 ""],
         edges := [{ id := "e1", from_node := "A", to_node := "B", label := none }] }
       ["A", "B"]).2.1.nodes.map Node.id).Nodup ∧
    (∀ e ∈ (pasteClipboard (copySelection ["A", "B"]
        { nodes := [Node.new "A" 0 0 "", Node.new "B" 300 0 ""],
          edges := [{ id := "e1", from_node := "A", to_node := "B", label := none }] })
       (fun s => s ++ "1") (fun s => s ++ "1") 0 0 (History.new Board 100)
       { nodes := [Node.new "A" 0 0 "", Node.new "B" 300 0 ""],
         edges := [{ id := "e1", from_node := "A", to_node := "B", label := none }] }
       ["A", "B"]).2.1.edges,
       e ∈ ({ nodes := [Node.new "A" 0 0 "", Node.new "B" 300 0 ""],
              edges := [{ id := "e1", from_node := "A", to_node := "B", label := none }] } : Board).edges ∨
       (e.from_node ∈ (pasteClipboard (copySelection ["A", "B"]
          { nodes := [Node.new "A" 0 0 "", Node.new "B" 300 0 ""],
            edges := [{ id := "e1", from_node := "A", to_node := "B", label := none }] })
         (fun s => s ++ "1") (fun s => s ++ "1") 0 0 (History.new Board 100)
         { nodes := [Node.new "A" 0 0 "", Node.new "B" 300 0 ""],
           edges := [{ id := "e1", from_node := "A", to_node := "B", label := none }] }
         ["A", "B"]).2.1.nodes.map Node.id ∧
        e.to_node ∈ (pasteClipboard (copySelection ["A", "B"]
          { nodes := [Node.new "A" 0 0 "", Node.new "B" 300 0 ""],
            edges := [{ id := "e1", from_node := "A", to_node := "B", label := none }] })
         (fun s => s ++ "1") (fun s => s ++ "1") 0 0 (History.new Board 100)
         { nodes := [Node.new "A" 0 0 "", Node.new "B" 300 0 ""],
           edges := [{ id := "e1", from_node := "A", to_node := "B", label := none }] }
         ["A", "B"]).2.1.nodes.map Node.id)) :=
  paste_fresh_ids_and_closed_edges ["A", "B"]
    { nodes := [Node.new "A" 0 0 "", Node.new "B" 300 0 ""],
      edges := [{ id := "e1", from_node := "A", to_node := "B", label := none }] }
    (by decide) (by decide) (fun s => s ++ "1") (fun s => s ++ "1")
    (History.new Board 100)
    { nodes := [Node.new "A" 0 0 "", Node.new "B" 300 0 ""],
      edges := [{ id := "e1", from_node := "A", to_node := "B", label := none }] }
    ["A", "B"] 0 0 (by decide) (by decide) (by decide) (by decide)

end Brainstorm

